import Mathlib

/-!
Verification of the maya home-monitoring companion.

Shallow embedding of the three core components (alert engine in
alerts.py, sensor hub in sensors.py, voice dispatcher in voice.py)
and proofs of the specified properties about them.

Python strings are modelled as Lean String where only equality is
needed, and as List Char where substring search, lower-casing and
stripping are needed.  Wall-clock timestamps are modelled as Int
(seconds); datetime subtraction becomes Int subtraction.
-/

/- ═══════════ Alert engine (alerts.py) ═══════════ -/

/-- One record of the JSONL alert log, as written by AlertSystem._log_alert. -/
structure AlertEntry where
  timestamp : Int
  atype : String
  message : String
  severity : String
deriving DecidableEq, Repr

/-- A physical line of the alert log file: either a well-formed JSON record
or a malformed line (json.loads raises JSONDecodeError on it). -/
inductive LogLine
  | valid (e : AlertEntry)
  | malformed (raw : String)
deriving DecidableEq, Repr

/-- In-memory state of AlertSystem: the per-type cooldown table
(a Python dict, modelled as an association list) and the content of the
append-only alerts.jsonl file. -/
structure AlertSystem where
  cooldowns : List (String × Int)
  logFile : List LogLine
deriving DecidableEq, Repr

/-- Configuration and callback wiring of AlertSystem: the cooldown from
config.get with key fall_cooldown_seconds (default 30), and whether the
on_alert_visual / on_alert_voice callbacks are set (non-None). -/
structure AlertConfig where
  cooldownSeconds : Int
  hasVisual : Bool
  hasVoice : Bool
deriving DecidableEq, Repr

/-- Python dict lookup d.get(k) / k in d, on a string-keyed association
list holding the dict in insertion order. -/
def lookupA {α : Type} : List (String × α) → String → Option α
  | [], _ => none
  | p :: rest, k => if p.1 == k then some p.2 else lookupA rest k

/-- Python dict assignment d[k] = v: replace the value in place if the key is
present, else append (insertion order preserved). -/
def setA {α : Type} : List (String × α) → String → α → List (String × α)
  | [], k, v => [(k, v)]
  | p :: rest, k, v => if p.1 == k then (k, v) :: rest else p :: setA rest k v

/-- A notification sent to a sink by AlertSystem.trigger. -/
inductive Sink
  | visual (atype message : String)
  | voice (message : String)
deriving DecidableEq, Repr

/-- AlertSystem.trigger: cooldown check against the per-type table; when not
suppressed, record the trigger time, append one record to the log, notify the
visual sink if wired, and additionally the voice sink for critical severity.
Returns the new state and the list of sink notifications made. -/
def trigger (cfg : AlertConfig) (st : AlertSystem) (now : Int)
    (alertType message severity : String) : AlertSystem × List Sink :=
  let suppressed : Bool :=
    match lookupA st.cooldowns alertType with
    | some last => now - last < cfg.cooldownSeconds
    | none => false
  if suppressed then (st, [])
  else
    ({ cooldowns := setA st.cooldowns alertType now,
       logFile := st.logFile ++ [LogLine.valid ⟨now, alertType, message, severity⟩] },
     (if cfg.hasVisual then [Sink.visual alertType message] else []) ++
     (if severity == "critical" && cfg.hasVoice then
        [Sink.voice ("Alert! " ++ message)] else []))

/-- The cooldown-suppression condition of trigger, as a Bool. -/
def cooldownActive (cfg : AlertConfig) (st : AlertSystem) (now : Int)
    (alertType : String) : Bool :=
  match lookupA st.cooldowns alertType with
  | some last => now - last < cfg.cooldownSeconds
  | none => false

/-- The well-formed records of the log, in file order
(the try/except json.loads loop of get_recent_alerts). -/
def validEntries (log : List LogLine) : List AlertEntry :=
  log.filterMap fun l =>
    match l with
    | LogLine.valid e => some e
    | LogLine.malformed _ => none

/-- Python list slice xs[-count:]: for count = 0 this is xs[0:], the whole
list; otherwise the last count elements (all of xs when count exceeds its
length). -/
def pySliceLast (xs : List AlertEntry) (count : Nat) : List AlertEntry :=
  if count = 0 then xs else xs.drop (xs.length - count)

/-- AlertSystem.get_recent_alerts: parse each line, skipping malformed ones,
and return the last count entries (Python slice alerts[-count:]). -/
def get_recent_alerts (st : AlertSystem) (count : Nat) : List AlertEntry :=
  pySliceLast (validEntries st.logFile) count

/-- Number of visual-sink notifications in a list of sink calls. -/
def visualCount (evs : List Sink) : Nat :=
  (evs.filter fun e =>
    match e with
    | Sink.visual _ _ => true
    | Sink.voice _ => false).length

example :
    trigger ⟨30, true, false⟩ ⟨[], []⟩ 0 "fall" "m" "warning" =
      (⟨[("fall", 0)], [LogLine.valid ⟨0, "fall", "m", "warning"⟩]⟩,
       [Sink.visual "fall" "m"]) := by decide

example :
    trigger ⟨30, true, false⟩ ⟨[("fall", 0)], []⟩ 10 "fall" "m" "warning" =
      (⟨[("fall", 0)], []⟩, []) := by decide

example :
    get_recent_alerts ⟨[], [LogLine.valid ⟨0, "a", "m", "info"⟩,
      LogLine.malformed "oops", LogLine.valid ⟨1, "b", "m2", "info"⟩]⟩ 10 =
      [⟨0, "a", "m", "info"⟩, ⟨1, "b", "m2", "info"⟩] := by decide

/- ═══════════ Association-list lemmas ═══════════ -/

theorem lookupA_setA_self {α : Type} (l : List (String × α)) (k : String) (v : α) :
    lookupA (setA l k v) k = some v := by
  induction l with
  | nil => simp [setA, lookupA]
  | cons p rest ih =>
    by_cases h : p.1 = k
    · simp [setA, lookupA, h]
    · simp [setA, lookupA, h, ih]

theorem lookupA_setA_ne {α : Type} (l : List (String × α)) (k k2 : String) (v : α)
    (h : k2 ≠ k) : lookupA (setA l k v) k2 = lookupA l k2 := by
  have hk : ¬k = k2 := fun hh => h hh.symm
  induction l with
  | nil => simp [setA, lookupA, hk]
  | cons p rest ih =>
    by_cases hp : p.1 = k
    · subst hp
      simp [setA, lookupA, hk]
    · simp [setA, lookupA, hp, ih]

/-- trigger, rewritten through the suppression condition. -/
theorem trigger_eq (cfg : AlertConfig) (st : AlertSystem) (now : Int)
    (T msg sev : String) :
    trigger cfg st now T msg sev =
      if cooldownActive cfg st now T then (st, [])
      else ({ cooldowns := setA st.cooldowns T now,
              logFile := st.logFile ++ [LogLine.valid ⟨now, T, msg, sev⟩] },
            (if cfg.hasVisual then [Sink.visual T msg] else []) ++
            (if sev == "critical" && cfg.hasVoice then
               [Sink.voice ("Alert! " ++ msg)] else [])) := rfl

theorem visualCount_accept (cfg : AlertConfig) (T msg sev : String)
    (hv : cfg.hasVisual = true) :
    visualCount ((if cfg.hasVisual then [Sink.visual T msg] else []) ++
      (if sev == "critical" && cfg.hasVoice then
         [Sink.voice ("Alert! " ++ msg)] else [])) = 1 := by
  cases hcv : (sev == "critical" && cfg.hasVoice) <;>
    simp [hv, hcv, visualCount]

/-- C1: a trigger call inside the cooldown window is a complete no-op
(no log append, no sink notification, no state change); a call outside it
(or for a never-triggered type) records the trigger time, appends exactly one
record and makes exactly one visual-sink notification.  Consequently two
calls of the same type within the window yield one append and one visual
notification in total, and calls spaced at least the window apart each
yield their own. -/
theorem trigger_cooldown_gate (cfg : AlertConfig) (st : AlertSystem) (now : Int)
    (T msg sev : String) (hv : cfg.hasVisual = true) :
    (cooldownActive cfg st now T = true →
       trigger cfg st now T msg sev = (st, [])) ∧
    (cooldownActive cfg st now T = false →
       (trigger cfg st now T msg sev).1.logFile
           = st.logFile ++ [LogLine.valid ⟨now, T, msg, sev⟩] ∧
       lookupA (trigger cfg st now T msg sev).1.cooldowns T = some now ∧
       visualCount (trigger cfg st now T msg sev).2 = 1) ∧
    (∀ t2 msg2 sev2, cooldownActive cfg st now T = false →
       t2 - now < cfg.cooldownSeconds →
       trigger cfg (trigger cfg st now T msg sev).1 t2 T msg2 sev2
         = ((trigger cfg st now T msg sev).1, [])) ∧
    (∀ t2 msg2 sev2, cooldownActive cfg st now T = false →
       cfg.cooldownSeconds ≤ t2 - now →
       (trigger cfg (trigger cfg st now T msg sev).1 t2 T msg2 sev2).1.logFile
         = st.logFile ++ [LogLine.valid ⟨now, T, msg, sev⟩,
                          LogLine.valid ⟨t2, T, msg2, sev2⟩] ∧
       visualCount (trigger cfg (trigger cfg st now T msg sev).1 t2 T msg2 sev2).2
         = 1) := by
  refine ⟨?_, ?_, ?_, ?_⟩
  · intro h
    rw [trigger_eq, h]
    rfl
  · intro h
    rw [trigger_eq, h]
    exact ⟨rfl, lookupA_setA_self _ _ _, visualCount_accept cfg T msg sev hv⟩
  · intro t2 msg2 sev2 h ht
    have hl : lookupA (trigger cfg st now T msg sev).1.cooldowns T = some now := by
      rw [trigger_eq, h]
      exact lookupA_setA_self _ _ _
    have hc : cooldownActive cfg (trigger cfg st now T msg sev).1 t2 T = true := by
      unfold cooldownActive
      rw [hl]
      simpa using ht
    rw [trigger_eq, hc]
    rfl
  · intro t2 msg2 sev2 h ht
    have hl : lookupA (trigger cfg st now T msg sev).1.cooldowns T = some now := by
      rw [trigger_eq, h]
      exact lookupA_setA_self _ _ _
    have hc : cooldownActive cfg (trigger cfg st now T msg sev).1 t2 T = false := by
      unfold cooldownActive
      rw [hl]
      simpa using not_lt.mpr ht
    constructor
    · rw [trigger_eq cfg _ t2 T msg2 sev2, hc]
      rw [trigger_eq, h]
      simp
    · rw [trigger_eq cfg _ t2 T msg2 sev2, hc]
      exact visualCount_accept cfg T msg2 sev2 hv

/-- Closed instantiation of trigger_cooldown_gate at concrete inputs. -/
theorem trigger_cooldown_gate_witness :
    (trigger ⟨30, true, false⟩ ⟨[("fall", 0)], []⟩ 40 "fall" "m" "warning").1.logFile
        = [LogLine.valid ⟨40, "fall", "m", "warning"⟩] ∧
    trigger ⟨30, true, false⟩
        (trigger ⟨30, true, false⟩ ⟨[("fall", 0)], []⟩ 40 "fall" "m" "warning").1
        50 "fall" "m2" "warning"
      = ((trigger ⟨30, true, false⟩ ⟨[("fall", 0)], []⟩ 40 "fall" "m" "warning").1, []) := by
  have h := trigger_cooldown_gate ⟨30, true, false⟩ ⟨[("fall", 0)], []⟩ 40
    "fall" "m" "warning" rfl
  exact ⟨(h.2.1 (by decide)).1, h.2.2.1 50 "m2" "warning" (by decide) (by decide)⟩

/-- Folding a sequence of trigger calls of one alert type over the state,
keeping only the state (times paired with message and severity). -/
def triggerSeq (cfg : AlertConfig) (st : AlertSystem) (T : String)
    (calls : List (Int × String × String)) : AlertSystem :=
  calls.foldl (fun s c => (trigger cfg s c.1 T c.2.1 c.2.2).1) st

/-- C10: a suppressed trigger leaves the whole state, in particular the
cooldown entry of its type, unchanged; hence any number of suppressed calls
never extends the suppression window, and a call at least the cooldown after
the last accepted trigger is accepted (appends its record) no matter how many
suppressed calls happened in between. -/
theorem suppressed_trigger_frame (cfg : AlertConfig) (st : AlertSystem)
    (T : String) (last : Int) (h : lookupA st.cooldowns T = some last) :
    (∀ now msg sev, now - last < cfg.cooldownSeconds →
       trigger cfg st now T msg sev = (st, [])) ∧
    (∀ calls : List (Int × String × String),
       (∀ c ∈ calls, c.1 - last < cfg.cooldownSeconds) →
       triggerSeq cfg st T calls = st ∧
       (∀ now msg sev, cfg.cooldownSeconds ≤ now - last →
          (trigger cfg (triggerSeq cfg st T calls) now T msg sev).1.logFile
            = st.logFile ++ [LogLine.valid ⟨now, T, msg, sev⟩])) := by
  have hsup : ∀ now msg sev, now - last < cfg.cooldownSeconds →
      trigger cfg st now T msg sev = (st, []) := by
    intro now msg sev hlt
    have hc : cooldownActive cfg st now T = true := by
      unfold cooldownActive
      rw [h]
      simpa using hlt
    rw [trigger_eq, hc]
    simp
  refine ⟨hsup, ?_⟩
  intro calls hcalls
  have hseq : triggerSeq cfg st T calls = st := by
    induction calls with
    | nil => rfl
    | cons c rest ih =>
      have h1 : (trigger cfg st c.1 T c.2.1 c.2.2).1 = st := by
        rw [hsup c.1 c.2.1 c.2.2 (hcalls c (List.mem_cons_self c rest))]
      show triggerSeq cfg (trigger cfg st c.1 T c.2.1 c.2.2).1 T rest = st
      rw [h1]
      exact ih (fun x hx => hcalls x (List.mem_cons_of_mem c hx))
  refine ⟨hseq, ?_⟩
  intro now msg sev hge
  rw [hseq]
  have hc : cooldownActive cfg st now T = false := by
    unfold cooldownActive
    rw [h]
    simpa using not_lt.mpr hge
  rw [trigger_eq, hc]
  simp

/-- Closed instantiation of suppressed_trigger_frame at concrete inputs. -/
theorem suppressed_trigger_frame_witness :
    triggerSeq ⟨30, true, false⟩ ⟨[("fall", 0)], []⟩ "fall"
        [(10, "m1", "warning"), (20, "m2", "warning"), (29, "m3", "warning")]
      = ⟨[("fall", 0)], []⟩ ∧
    (trigger ⟨30, true, false⟩
        (triggerSeq ⟨30, true, false⟩ ⟨[("fall", 0)], []⟩ "fall"
          [(10, "m1", "warning"), (20, "m2", "warning"), (29, "m3", "warning")])
        30 "fall" "m4" "warning").1.logFile
      = [LogLine.valid ⟨30, "fall", "m4", "warning"⟩] := by
  have h := suppressed_trigger_frame ⟨30, true, false⟩ ⟨[("fall", 0)], []⟩
    "fall" 0 rfl
  have h2 := h.2 [(10, "m1", "warning"), (20, "m2", "warning"), (29, "m3", "warning")]
    (by decide)
  exact ⟨h2.1, h2.2 30 "m4" "warning" (by decide)⟩

/- ═══════════ Log retrieval lemmas ═══════════ -/

theorem mem_drop_append {α : Type} (L : List α) (e : α) (n : Nat)
    (h : n ≤ L.length) : e ∈ (L ++ [e]).drop n := by
  induction L generalizing n with
  | nil =>
    have : n = 0 := Nat.le_zero.mp h
    subst this
    simp
  | cons a L ih =>
    cases n with
    | zero => simp
    | succ m =>
      simp only [List.cons_append, List.drop_succ_cons]
      exact ih m (Nat.le_of_succ_le_succ h)

theorem mem_pySliceLast_last (L : List AlertEntry) (e : AlertEntry) (c : Nat)
    (hc : 1 ≤ c) : e ∈ pySliceLast (L ++ [e]) c := by
  unfold pySliceLast
  by_cases h0 : c = 0
  · omega
  · simp only [h0, if_false]
    apply mem_drop_append
    simp only [List.length_append, List.length_cons, List.length_nil]
    omega

theorem validEntries_append (l1 l2 : List LogLine) :
    validEntries (l1 ++ l2) = validEntries l1 ++ validEntries l2 := by
  simp [validEntries]

/-- C9: an alert accepted by trigger (not suppressed by the cooldown) is
retrievable through get_recent_alerts, with the same type, message and
severity fields, for any positive count. -/
theorem trigger_roundtrip (cfg : AlertConfig) (st : AlertSystem) (now : Int)
    (T msg sev : String) (count : Nat)
    (hacc : cooldownActive cfg st now T = false) (hc : 1 ≤ count) :
    (⟨now, T, msg, sev⟩ : AlertEntry)
      ∈ get_recent_alerts (trigger cfg st now T msg sev).1 count := by
  unfold get_recent_alerts
  rw [trigger_eq, hacc]
  simp only [Bool.false_eq_true, if_false]
  rw [validEntries_append]
  have : validEntries [LogLine.valid ⟨now, T, msg, sev⟩]
      = [(⟨now, T, msg, sev⟩ : AlertEntry)] := rfl
  rw [this]
  exact mem_pySliceLast_last _ _ count hc

/-- Closed instantiation of trigger_roundtrip at concrete inputs. -/
theorem trigger_roundtrip_witness :
    (⟨5, "fall", "m", "critical"⟩ : AlertEntry)
      ∈ get_recent_alerts
          (trigger ⟨30, true, true⟩
            ⟨[], [LogLine.valid ⟨0, "x", "m0", "info"⟩]⟩ 5 "fall" "m" "critical").1
          10 :=
  trigger_roundtrip ⟨30, true, true⟩ ⟨[], [LogLine.valid ⟨0, "x", "m0", "info"⟩]⟩
    5 "fall" "m" "critical" 10 rfl (by decide)

/-- A sample log of 15 well-formed entries with distinct timestamps. -/
def log15 : List LogLine :=
  (List.range 15).map fun i => LogLine.valid ⟨(i : Int), "t", "m", "info"⟩

/-- C8 counterexample: with count = 0 the claim demands the last 0 entries,
the empty list, but get_recent_alerts evaluates the Python slice
alerts[-0:] = alerts[0:] and returns every entry of the log. -/
theorem recent_alerts_count_zero_cex :
    get_recent_alerts ⟨[], [LogLine.valid ⟨0, "fall", "m", "warning"⟩]⟩ 0
      = [⟨0, "fall", "m", "warning"⟩] ∧
    get_recent_alerts ⟨[], [LogLine.valid ⟨0, "fall", "m", "warning"⟩]⟩ 0 ≠ [] := by
  constructor
  · rfl
  · decide

/-- C8 amended: for every count of at least 1, get_recent_alerts returns the
last count well-formed entries of the log (all of them when fewer than count
exist), in original order, skipping malformed lines; in particular on 15
well-formed entries count 10 yields the last 10 in order, and a log with one
malformed line among valid ones yields only the valid entries. -/
theorem recent_alerts_last_count (st : AlertSystem) (count : Nat)
    (hc : 1 ≤ count) :
    get_recent_alerts st count
        = (validEntries st.logFile).drop ((validEntries st.logFile).length - count) ∧
    (get_recent_alerts st count).IsSuffix (validEntries st.logFile) ∧
    (get_recent_alerts st count).length = min count (validEntries st.logFile).length ∧
    get_recent_alerts ⟨[], log15⟩ 10
        = (List.range' 5 10).map (fun i => (⟨(i : Int), "t", "m", "info"⟩ : AlertEntry)) ∧
    get_recent_alerts ⟨[], [LogLine.valid ⟨0, "a", "m1", "info"⟩,
        LogLine.malformed "not a json line",
        LogLine.valid ⟨1, "b", "m2", "info"⟩]⟩ 10
      = [⟨0, "a", "m1", "info"⟩, ⟨1, "b", "m2", "info"⟩] := by
  have h0 : count ≠ 0 := by omega
  have hdef : get_recent_alerts st count
      = (validEntries st.logFile).drop ((validEntries st.logFile).length - count) := by
    unfold get_recent_alerts pySliceLast
    simp [h0]
  refine ⟨hdef, ?_, ?_, by decide, by decide⟩
  · rw [hdef]
    exact List.drop_suffix _ _
  · rw [hdef]
    simp only [List.length_drop]
    omega

/-- Closed instantiation of recent_alerts_last_count at concrete inputs. -/
theorem recent_alerts_last_count_witness :
    get_recent_alerts ⟨[], log15⟩ 10
      = (List.range' 5 10).map (fun i => (⟨(i : Int), "t", "m", "info"⟩ : AlertEntry)) :=
  (recent_alerts_last_count ⟨[], log15⟩ 10 (by decide)).2.2.2.1

/- ═══════════ Sensor hub (sensors.py) ═══════════ -/

/-- Sensor status strings used by SensorHub. -/
inductive SensorStatus
  | pending
  | connected
  | offline
deriving DecidableEq, Repr

/-- The per-sensor dict built by SensorHub.register: status, last formatted
value, whether a read_fn was supplied, poll interval, optional I2C address,
the last_read field (written once, never updated) and the consecutive
error counter. -/
structure Sensor where
  status : SensorStatus
  value : String
  hasReadFn : Bool
  interval : Int
  i2cAddr : Option Nat
  lastRead : Int
  errorCount : Nat
deriving DecidableEq, Repr

/-- The dict literal assigned by SensorHub.register. -/
def freshSensor (hasReadFn : Bool) (interval : Int) (i2cAddr : Option Nat) : Sensor :=
  { status := SensorStatus.pending, value := "—", hasReadFn := hasReadFn,
    interval := interval, i2cAddr := i2cAddr, lastRead := 0, errorCount := 0 }

/-- SensorHub.register: unconditionally assigns self.sensors[name] to a fresh
descriptor (a Python dict assignment; there is no duplicate check). -/
def register (sensors : List (String × Sensor)) (name : String)
    (hasReadFn : Bool) (interval : Int) (i2cAddr : Option Nat) :
    List (String × Sensor) :=
  setA sensors name (freshSensor hasReadFn interval i2cAddr)

/-- Python truthiness of the i2c_addr field (None and 0 are falsy). -/
def i2cTruthy (a : Option Nat) : Bool :=
  match a with
  | none => false
  | some n => n != 0

/-- Outcome of the environment for one probe or read attempt:
busOpen models self._bus being non-None, busRead the success of
bus.read_byte, and readResult the value returned by read_fn
(none meaning the call raised). -/
structure PollEnv where
  busOpen : Bool
  busRead : Bool
  readResult : Option String
deriving DecidableEq, Repr

/-- SensorHub.probe on one sensor: bus touch if an I2C address is configured
and the bus is open, else a single read through read_fn if present; success
sets Connected (and, in the read_fn branch, the value), failure sets Offline.
Returns the updated sensor and the boolean result of probe. -/
def probe (env : PollEnv) (s : Sensor) : Sensor × Bool :=
  if i2cTruthy s.i2cAddr && env.busOpen then
    if env.busRead then ({ s with status := SensorStatus.connected }, true)
    else ({ s with status := SensorStatus.offline }, false)
  else if s.hasReadFn then
    match env.readResult with
    | some v => ({ s with status := SensorStatus.connected, value := v }, true)
    | none => ({ s with status := SensorStatus.offline }, false)
  else (s, false)

/-- One broadcast from the polling loop to the subscriber list: the loop
calls every callback in self.callbacks with (name, status, value). -/
structure Broadcast where
  status : SensorStatus
  value : String
deriving DecidableEq, Repr

/-- One iteration of the while-True body of SensorHub.poll_sensor (without
the trailing sleep): Connected sensors with a read capability are read —
success stores the value, resets the error counter and broadcasts an update
to every subscriber; failure increments the error counter and, once it
exceeds 5, sets Offline and value "ERR" without broadcasting anything.
Offline sensors are probed instead.  Anything else is left untouched. -/
def pollStep (env : PollEnv) (s : Sensor) : Sensor × List Broadcast :=
  if s.status = SensorStatus.connected && s.hasReadFn then
    match env.readResult with
    | some v =>
      ({ s with value := v, errorCount := 0 },
       [⟨SensorStatus.connected, v⟩])
    | none =>
      if s.errorCount + 1 > 5 then
        ({ s with errorCount := s.errorCount + 1,
                  status := SensorStatus.offline, value := "ERR" }, [])
      else
        ({ s with errorCount := s.errorCount + 1 }, [])
  else if s.status = SensorStatus.offline then
    ((probe env s).1, [])
  else (s, [])

/-- n iterations of the polling loop under a fixed environment,
discarding broadcasts. -/
def pollIter (env : PollEnv) : Nat → Sensor → Sensor
  | 0, s => s
  | n + 1, s => pollIter env n (pollStep env s).1

example :
    pollStep ⟨false, false, none⟩
      ⟨SensorStatus.connected, "72 bpm", true, 1, none, 0, 5⟩ =
    (⟨SensorStatus.offline, "ERR", true, 1, none, 0, 6⟩, []) := by decide

example :
    pollStep ⟨false, false, none⟩
      ⟨SensorStatus.connected, "72 bpm", true, 1, none, 0, 4⟩ =
    (⟨SensorStatus.connected, "72 bpm", true, 1, none, 0, 5⟩, []) := by decide

/- ═══════════ Sensor hub theorems ═══════════ -/

/-- C2 counterexample: a Connected sensor with a read capability and a zero
error counter is still Connected after exactly 5 consecutive failed reads
(the code transitions only when the counter exceeds 5, i.e. on the 6th
failure), and its value is untouched — contradicting the claimed
transition after 5 failures and the claimed "ERR" publication. -/
theorem poll_five_failures_cex :
    (pollIter ⟨false, false, none⟩ 5
        ⟨SensorStatus.connected, "72 bpm", true, 1, none, 0, 0⟩).status
      = SensorStatus.connected ∧
    (pollIter ⟨false, false, none⟩ 5
        ⟨SensorStatus.connected, "72 bpm", true, 1, none, 0, 0⟩).status
      ≠ SensorStatus.offline ∧
    (pollIter ⟨false, false, none⟩ 5
        ⟨SensorStatus.connected, "72 bpm", true, 1, none, 0, 0⟩).value
      ≠ "ERR" := by
  refine ⟨rfl, by decide, by decide⟩

/-- C2 amended: 6 consecutive failed reads (the counter must exceed the
threshold 5) transition a Connected sensor with a read capability from
Connected to Offline and set its value to "ERR"; the transitioning iteration
publishes no update event to subscribers (the "ERR" value is only visible
through state queries). -/
theorem poll_offline_after_six (env : PollEnv) (v : String) (iv : Int)
    (addr : Option Nat) (lr : Int) (h : env.readResult = none) :
    (pollIter env 5 ⟨SensorStatus.connected, v, true, iv, addr, lr, 0⟩).status
        = SensorStatus.connected ∧
    (pollIter env 6 ⟨SensorStatus.connected, v, true, iv, addr, lr, 0⟩).status
        = SensorStatus.offline ∧
    (pollIter env 6 ⟨SensorStatus.connected, v, true, iv, addr, lr, 0⟩).value
        = "ERR" ∧
    (pollStep env (pollIter env 5 ⟨SensorStatus.connected, v, true, iv, addr, lr, 0⟩)).2
        = [] := by
  obtain ⟨bo, br, rr⟩ := env
  simp only at h
  subst h
  exact ⟨rfl, rfl, rfl, rfl⟩

/-- Closed instantiation of poll_offline_after_six at concrete inputs. -/
theorem poll_offline_after_six_witness :
    (pollIter ⟨false, false, none⟩ 6
        ⟨SensorStatus.connected, "72 bpm", true, 1, none, 0, 0⟩).status
        = SensorStatus.offline ∧
    (pollIter ⟨false, false, none⟩ 6
        ⟨SensorStatus.connected, "72 bpm", true, 1, none, 0, 0⟩).value
        = "ERR" :=
  ⟨(poll_offline_after_six ⟨false, false, none⟩ "72 bpm" 1 none 0 rfl).2.1,
   (poll_offline_after_six ⟨false, false, none⟩ "72 bpm" 1 none 0 rfl).2.2.1⟩

/-- C4 counterexample: registering a name that is already registered does not
fail and does not leave the previous descriptor untouched — it silently
replaces it with a fresh Pending descriptor. -/
theorem register_duplicate_cex :
    lookupA (register
        [("MAX30102", ⟨SensorStatus.connected, "72 bpm", true, 2, none, 0, 0⟩)]
        "MAX30102" true 2 none) "MAX30102"
      = some (freshSensor true 2 none) ∧
    lookupA (register
        [("MAX30102", ⟨SensorStatus.connected, "72 bpm", true, 2, none, 0, 0⟩)]
        "MAX30102" true 2 none) "MAX30102"
      ≠ some ⟨SensorStatus.connected, "72 bpm", true, 2, none, 0, 0⟩ := by
  refine ⟨rfl, by decide⟩

/-- C4 amended: register never fails; calling it with an already-registered
name silently replaces the existing descriptor and its runtime state with a
fresh Pending descriptor (value dash, error count 0), while every other
registered sensor is left unchanged.  No ConfigError exists in the code. -/
theorem register_overwrites (sensors : List (String × Sensor)) (name : String)
    (f : Bool) (iv : Int) (addr : Option Nat) :
    lookupA (register sensors name f iv addr) name = some (freshSensor f iv addr) ∧
    (∀ other, other ≠ name →
       lookupA (register sensors name f iv addr) other = lookupA sensors other) :=
  ⟨lookupA_setA_self sensors name (freshSensor f iv addr),
   fun _ ho => lookupA_setA_ne sensors name _ (freshSensor f iv addr) ho⟩

/-- Closed instantiation of register_overwrites at concrete inputs. -/
theorem register_overwrites_witness :
    lookupA (register
        [("MPU6050", ⟨SensorStatus.connected, "Active", true, 1, none, 0, 0⟩)]
        "MPU6050" true 1 none) "MPU6050" = some (freshSensor true 1 none) ∧
    lookupA (register
        [("MPU6050", ⟨SensorStatus.connected, "Active", true, 1, none, 0, 0⟩)]
        "MPU6050" true 1 none) "BME280"
      = lookupA [("MPU6050",
          (⟨SensorStatus.connected, "Active", true, 1, none, 0, 0⟩ : Sensor))] "BME280" :=
  ⟨(register_overwrites
      [("MPU6050", ⟨SensorStatus.connected, "Active", true, 1, none, 0, 0⟩)]
      "MPU6050" true 1 none).1,
   (register_overwrites
      [("MPU6050", ⟨SensorStatus.connected, "Active", true, 1, none, 0, 0⟩)]
      "MPU6050" true 1 none).2 "BME280" (by decide)⟩

/-- For an Offline sensor the loop body is exactly a probe attempt,
with no read and no broadcast. -/
theorem pollStep_offline_eq (env : PollEnv) (s : Sensor)
    (hs : s.status = SensorStatus.offline) :
    pollStep env s = ((probe env s).1, []) := by
  simp [pollStep, hs]

theorem pollStep_offline_probe_fail (env : PollEnv) (s : Sensor)
    (hs : s.status = SensorStatus.offline) (hf1 : env.readResult = none)
    (hf2 : env.busRead = false) :
    (pollStep env s).1.status = SensorStatus.offline ∧
    (pollStep env s).1.hasReadFn = s.hasReadFn := by
  rw [pollStep_offline_eq env s hs]
  unfold probe
  by_cases h1 : (i2cTruthy s.i2cAddr && env.busOpen) = true
  · simp [h1, hf2]
  · by_cases h2 : s.hasReadFn = true
    · simp [h1, h2, hf1]
    · simp [h1, h2, hs]

theorem pollStep_offline_probe_success (env : PollEnv) (s : Sensor) (v : String)
    (hs : s.status = SensorStatus.offline) (hr : s.hasReadFn = true)
    (hg1 : env.busRead = true) (hg2 : env.readResult = some v) :
    (pollStep env s).1.status = SensorStatus.connected := by
  rw [pollStep_offline_eq env s hs]
  unfold probe
  by_cases h1 : (i2cTruthy s.i2cAddr && env.busOpen) = true
  · simp [h1, hg1]
  · simp [h1, hr, hg2]

/-- C7: an Offline sensor is probed, not read, on every polling iteration;
under an environment in which every probe fails it stays Offline for every
number of iterations (retries never stop), and at any point a successful
probe transitions it back to Connected. -/
theorem offline_retry_indefinite (s : Sensor) (envF envS : PollEnv) (v : String)
    (hs : s.status = SensorStatus.offline) (hr : s.hasReadFn = true)
    (hf1 : envF.readResult = none) (hf2 : envF.busRead = false)
    (hg1 : envS.busRead = true) (hg2 : envS.readResult = some v) :
    ∀ n : Nat,
      (pollIter envF n s).status = SensorStatus.offline ∧
      (∀ env2 : PollEnv, pollStep env2 (pollIter envF n s)
         = ((probe env2 (pollIter envF n s)).1, [])) ∧
      (pollStep envS (pollIter envF n s)).1.status = SensorStatus.connected := by
  have aux : ∀ (n : Nat) (t : Sensor), t.status = SensorStatus.offline →
      t.hasReadFn = true →
      (pollIter envF n t).status = SensorStatus.offline ∧
      (pollIter envF n t).hasReadFn = true := by
    intro n
    induction n with
    | zero => intro t h1 h2; exact ⟨h1, h2⟩
    | succ m ih =>
      intro t h1 h2
      have hstep := pollStep_offline_probe_fail envF t h1 hf1 hf2
      exact ih _ hstep.1 (hstep.2.trans h2)
  intro n
  obtain ⟨h1, h2⟩ := aux n s hs hr
  exact ⟨h1, fun env2 => pollStep_offline_eq env2 _ h1,
         pollStep_offline_probe_success envS _ v h1 h2 hg1 hg2⟩

/-- Closed instantiation of offline_retry_indefinite at concrete inputs. -/
theorem offline_retry_indefinite_witness :
    (pollIter ⟨false, false, none⟩ 100
        ⟨SensorStatus.offline, "ERR", true, 1, none, 0, 6⟩).status
      = SensorStatus.offline ∧
    (pollStep ⟨true, true, some "73 bpm"⟩
        (pollIter ⟨false, false, none⟩ 100
          ⟨SensorStatus.offline, "ERR", true, 1, none, 0, 6⟩)).1.status
      = SensorStatus.connected := by
  have h := offline_retry_indefinite
    ⟨SensorStatus.offline, "ERR", true, 1, none, 0, 6⟩
    ⟨false, false, none⟩ ⟨true, true, some "73 bpm"⟩ "73 bpm"
    rfl rfl rfl rfl rfl rfl 100
  exact ⟨h.1, h.2.2⟩

/- ═══════════ Voice dispatcher (voice.py) ═══════════ -/

/-- Python str.lower() on text modelled as a character list. -/
def lowerL (cs : List Char) : List Char := cs.map Char.toLower

/-- Python str.strip(): drop whitespace from both ends. -/
def stripL (cs : List Char) : List Char :=
  ((cs.dropWhile Char.isWhitespace).reverse.dropWhile Char.isWhitespace).reverse

/-- Python substring containment needle in hay. -/
def containsSub (hay needle : List Char) : Bool :=
  hay.tails.any fun t => needle.isPrefixOf t

/-- The part of hay after the first occurrence of needle:
Python text.split(needle, 1)[-1] when needle occurs in text. -/
def afterFirst (needle : List Char) : List Char → List Char
  | [] => []
  | c :: rest =>
    if needle.isPrefixOf (c :: rest) then (c :: rest).drop needle.length
    else afterFirst needle rest

/-- The mutable flags of VoiceAssistant that _process_speech touches:
self.listening (ActiveListening when true, Idle otherwise) and the
orthogonal self.speaking busy flag set during playback. -/
structure VoiceState where
  listening : Bool
  speaking : Bool
deriving DecidableEq, Repr

/-- Externally visible actions of one _process_speech call. -/
inductive VoiceEvent
  | dispatched (cmd : List Char)
  | spoke (msg : List Char)
  | listeningChange (b : Bool)
deriving DecidableEq, Repr

/-- The response spoken on entering active listening. -/
def yesListening : List Char := "Yes? I\x27m listening.".toList

/-- VoiceAssistant._process_speech on one recognized utterance (already
lower-cased by the recognition loop): if the wake word occurs in the text,
the trailing part after it is dispatched directly when non-empty, otherwise
the assistant enters active listening; an utterance without the wake word is
dispatched as the command exactly when already in active listening, which is
then left.  The speaking flag is never consulted. -/
def processSpeech (wake : List Char) (st : VoiceState) (text : List Char) :
    VoiceState × List VoiceEvent :=
  if containsSub text wake then
    let command := stripL (afterFirst wake text)
    if command.isEmpty then
      ({ st with listening := true },
       [VoiceEvent.spoke yesListening, VoiceEvent.listeningChange true])
    else
      (st, [VoiceEvent.dispatched command])
  else if st.listening then
    ({ st with listening := false },
     [VoiceEvent.dispatched text, VoiceEvent.listeningChange false])
  else (st, [])

/-- The fallback response of _handle_command when no keyword matches. -/
def fallbackResponse (cmd : List Char) : List Char :=
  "I heard you say: ".toList ++ cmd ++ ". I\x27m still learning!".toList

/-- The scan loop of VoiceAssistant._handle_command: first table entry whose
keyword is a substring of the command text, in table-iteration order. -/
def findHandler {α : Type} : List (List Char × α) → List Char →
    Option (List Char × α)
  | [], _ => none
  | (k, h) :: rest, cmd =>
    if containsSub cmd k then some (k, h) else findHandler rest cmd

/-- VoiceAssistant._handle_command with handlers modelled as response
functions: the matched handler is invoked on the full command text and its
response spoken; with no match the fixed fallback echoing the input is
spoken. -/
def handleCommand (table : List (List Char × (List Char → List Char)))
    (cmd : List Char) : List Char :=
  match findHandler table cmd with
  | some kh => kh.2 cmd
  | none => fallbackResponse cmd

/-- Tags naming the built-in handler methods of
VoiceAssistant._register_default_commands. -/
inductive CmdTag
  | time | date | hello | howAreYou | help | thanks | greeting
  | goodnight | weather | temperature | healthCheck | emergency | quiet
deriving DecidableEq, Repr

/-- The default command table of _register_default_commands, in insertion
order, with each keyword mapped to the tag of its handler method. -/
def defaultCommandKeys : List (List Char × CmdTag) :=
  [("time".toList, CmdTag.time),
   ("what time".toList, CmdTag.time),
   ("date".toList, CmdTag.date),
   ("what day".toList, CmdTag.date),
   ("today".toList, CmdTag.date),
   ("hello".toList, CmdTag.hello),
   ("hi".toList, CmdTag.hello),
   ("how are you".toList, CmdTag.howAreYou),
   ("help".toList, CmdTag.help),
   ("what can you do".toList, CmdTag.help),
   ("thank".toList, CmdTag.thanks),
   ("good morning".toList, CmdTag.greeting),
   ("good afternoon".toList, CmdTag.greeting),
   ("good evening".toList, CmdTag.greeting),
   ("good night".toList, CmdTag.goodnight),
   ("weather".toList, CmdTag.weather),
   ("temperature".toList, CmdTag.temperature),
   ("how am i".toList, CmdTag.healthCheck),
   ("health".toList, CmdTag.healthCheck),
   ("emergency".toList, CmdTag.emergency),
   ("stop".toList, CmdTag.quiet),
   ("quiet".toList, CmdTag.quiet)]

example :
    processSpeech "hey maya".toList ⟨false, false⟩
        "hey maya what time is it".toList
      = (⟨false, false⟩, [VoiceEvent.dispatched "what time is it".toList]) := by
  decide

example :
    processSpeech "hey maya".toList ⟨false, false⟩ "hey maya".toList
      = (⟨true, false⟩,
         [VoiceEvent.spoke yesListening, VoiceEvent.listeningChange true]) := by
  decide

example :
    findHandler defaultCommandKeys "what is today\x27s date".toList
      = some ("date".toList, CmdTag.date) := by
  decide

/- ═══════════ Voice dispatcher theorems ═══════════ -/

theorem containsSub_self (l : List Char) : containsSub l l = true := by
  cases l with
  | nil => rfl
  | cons c rest =>
    unfold containsSub
    rw [List.tails_cons, List.any_cons]
    have hp : (c :: rest).isPrefixOf (c :: rest) = true := by
      simp [List.isPrefixOf_iff_prefix]
    simp [hp]

theorem afterFirst_self (l : List Char) : afterFirst l l = [] := by
  cases l with
  | nil => rfl
  | cons c rest =>
    unfold afterFirst
    have hp : (c :: rest).isPrefixOf (c :: rest) = true := by
      simp [List.isPrefixOf_iff_prefix]
    simp [hp]

/-- C3: an utterance containing the wake phrase with non-empty trailing text
dispatches the trailing text directly and does not change state (the
dispatcher does not enter ActiveListening); an utterance that is exactly the
wake phrase enters ActiveListening; from ActiveListening the next utterance
(one without the wake phrase) is dispatched as the command and the dispatcher
returns to Idle. -/
theorem wake_phrase_dispatch_flow (wake : List Char) (st : VoiceState)
    (text u : List Char) :
    (containsSub text wake = true → stripL (afterFirst wake text) ≠ [] →
       processSpeech wake st text
         = (st, [VoiceEvent.dispatched (stripL (afterFirst wake text))])) ∧
    (processSpeech wake st wake
       = ({ st with listening := true },
          [VoiceEvent.spoke yesListening, VoiceEvent.listeningChange true])) ∧
    (containsSub u wake = false →
       processSpeech wake { st with listening := true } u
         = ({ st with listening := false },
            [VoiceEvent.dispatched u, VoiceEvent.listeningChange false])) := by
  refine ⟨?_, ?_, ?_⟩
  · intro h1 h2
    simp [processSpeech, h1, List.isEmpty_iff, h2]
  · simp [processSpeech, containsSub_self, afterFirst_self]
    rfl
  · intro hu
    simp [processSpeech, hu]

/-- Closed instantiation of wake_phrase_dispatch_flow at concrete inputs. -/
theorem wake_phrase_dispatch_flow_witness :
    processSpeech "hey maya".toList ⟨false, false⟩
        "hey maya what time is it".toList
      = (⟨false, false⟩, [VoiceEvent.dispatched
          (stripL (afterFirst "hey maya".toList "hey maya what time is it".toList))]) ∧
    processSpeech "hey maya".toList ⟨false, false⟩ "hey maya".toList
      = (⟨true, false⟩,
         [VoiceEvent.spoke yesListening, VoiceEvent.listeningChange true]) ∧
    processSpeech "hey maya".toList ⟨true, false⟩ "what time is it".toList
      = (⟨false, false⟩,
         [VoiceEvent.dispatched "what time is it".toList,
          VoiceEvent.listeningChange false]) := by
  have h := wake_phrase_dispatch_flow "hey maya".toList ⟨false, false⟩
    "hey maya what time is it".toList "what time is it".toList
  exact ⟨h.1 (by decide) (by decide), h.2.1, h.2.2 (by decide)⟩

/-- C5 counterexample: with the Speaking flag set (playback in progress), the
utterance consisting of the wake phrase still triggers the wake-word
transition: the dispatcher enters ActiveListening and reacts exactly as when
not speaking.  Nothing in _process_speech consults self.speaking. -/
theorem speaking_wake_cex :
    (processSpeech "hey maya".toList ⟨false, true⟩ "hey maya".toList).1.listening
      = true ∧
    (processSpeech "hey maya".toList ⟨false, true⟩ "hey maya".toList).2
      = [VoiceEvent.spoke yesListening, VoiceEvent.listeningChange true] := by
  decide

/-- C5 amended: the Speaking flag does not suppress wake-word handling:
speech processing never consults it (listening transition and emitted actions
are identical for any value of the flag), and an utterance containing the
wake phrase with no trailing text triggers the wake-word transition even
while Speaking is set. -/
theorem processSpeech_ignores_speaking (wake : List Char) (l sp : Bool)
    (text : List Char) :
    ((processSpeech wake ⟨l, sp⟩ text).1.listening
        = (processSpeech wake ⟨l, false⟩ text).1.listening) ∧
    ((processSpeech wake ⟨l, sp⟩ text).2
        = (processSpeech wake ⟨l, false⟩ text).2) ∧
    ((processSpeech wake ⟨l, sp⟩ text).1.speaking = sp) ∧
    (containsSub text wake = true → stripL (afterFirst wake text) = [] →
       (processSpeech wake ⟨l, sp⟩ text).1.listening = true) := by
  by_cases h1 : containsSub text wake = true
  · by_cases h2 : (stripL (afterFirst wake text)).isEmpty = true
    · simp [processSpeech, h1, h2]
    · have h2b : stripL (afterFirst wake text) ≠ [] := by
        simpa [List.isEmpty_iff] using h2
      simp [processSpeech, h1, h2, h2b]
  · by_cases hl : l = true
    · simp [processSpeech, h1, hl]
    · simp [processSpeech, h1, hl]

/-- Closed instantiation of processSpeech_ignores_speaking at concrete
inputs. -/
theorem processSpeech_ignores_speaking_witness :
    (processSpeech "hey maya".toList ⟨false, true⟩ "hey maya".toList).1.speaking
      = true ∧
    (processSpeech "hey maya".toList ⟨false, true⟩ "hey maya".toList).1.listening
      = true := by
  have h := processSpeech_ignores_speaking "hey maya".toList false true
    "hey maya".toList
  exact ⟨h.2.2.1, h.2.2.2 (by decide) (by decide)⟩

theorem findHandler_cons_pos {α : Type} (k : List Char) (h : α)
    (rest : List (List Char × α)) (cmd : List Char)
    (hk : containsSub cmd k = true) :
    findHandler ((k, h) :: rest) cmd = some (k, h) := by
  show (if containsSub cmd k = true then some (k, h) else findHandler rest cmd)
      = some (k, h)
  rw [if_pos hk]

theorem findHandler_cons_neg {α : Type} (k : List Char) (h : α)
    (rest : List (List Char × α)) (cmd : List Char)
    (hk : containsSub cmd k = false) :
    findHandler ((k, h) :: rest) cmd = findHandler rest cmd := by
  show (if containsSub cmd k = true then some (k, h) else findHandler rest cmd)
      = findHandler rest cmd
  rw [if_neg (ne_true_of_eq_false hk)]

theorem findHandler_isSome {α : Type} (tbl : List (List Char × α))
    (cmd : List Char) :
    (findHandler tbl cmd).isSome = true ↔
      ∃ p ∈ tbl, containsSub cmd p.1 = true := by
  induction tbl with
  | nil =>
    constructor
    · intro hs
      exact Bool.noConfusion hs
    · rintro ⟨p, hp, -⟩
      exact absurd hp (List.not_mem_nil p)
  | cons p rest ih =>
    obtain ⟨k, hh⟩ := p
    by_cases hk : containsSub cmd k = true
    · rw [findHandler_cons_pos k hh rest cmd hk]
      constructor
      · intro _
        exact ⟨(k, hh), List.mem_cons_self _ _, hk⟩
      · intro _
        rfl
    · rw [findHandler_cons_neg k hh rest cmd (eq_false_of_ne_true hk)]
      constructor
      · intro hs
        obtain ⟨q, hq, hcq⟩ := ih.mp hs
        exact ⟨q, List.mem_cons_of_mem _ hq, hcq⟩
      · rintro ⟨q, hq, hcq⟩
        rcases List.mem_cons.mp hq with h1 | h2
        · rw [h1] at hcq
          exact absurd hcq hk
        · exact ih.mpr ⟨q, h2, hcq⟩

theorem findHandler_append_first {α : Type} (t1 t2 : List (List Char × α))
    (k : List Char) (h : α) (cmd : List Char) :
    (∀ p ∈ t1, containsSub cmd p.1 = false) → containsSub cmd k = true →
    findHandler (t1 ++ (k, h) :: t2) cmd = some (k, h) := by
  induction t1 with
  | nil =>
    intro _ hk
    exact findHandler_cons_pos k h t2 cmd hk
  | cons p rest ih =>
    intro hnone hk
    obtain ⟨k2, h2⟩ := p
    have hp : containsSub cmd k2 = false :=
      hnone (k2, h2) (List.mem_cons_self _ _)
    rw [List.cons_append, findHandler_cons_neg k2 h2 (rest ++ (k, h) :: t2) cmd hp]
    exact ih (fun q hq => hnone q (List.mem_cons_of_mem _ hq)) hk

/-- C6: command dispatch scans the table in iteration order for the first
keyword that is a substring of the command text and speaks that handler's
response; matching is insensitive to the case of the utterance because the
recognition loop lower-cases it before dispatch (matching depends only on the
lower-cased text); a match exists exactly when some keyword of the table is a
substring; with no match the fixed fallback echoing the input is spoken, so
every dispatched command yields a spoken response; and on the default table
the utterance about today's date matches the keyword date. -/
theorem command_dispatch_semantics
    (tbl t1 t2 : List (List Char × (List Char → List Char)))
    (k : List Char) (h : List Char → List Char) (cmd u1 u2 : List Char) :
    (lowerL u1 = lowerL u2 →
       handleCommand tbl (lowerL u1) = handleCommand tbl (lowerL u2)) ∧
    ((∀ p ∈ t1, containsSub cmd p.1 = false) → containsSub cmd k = true →
       handleCommand (t1 ++ (k, h) :: t2) cmd = h cmd) ∧
    (findHandler tbl cmd = none → handleCommand tbl cmd = fallbackResponse cmd) ∧
    ((findHandler tbl cmd).isSome = true ↔
       ∃ p ∈ tbl, containsSub cmd p.1 = true) ∧
    (findHandler defaultCommandKeys "what is today\x27s date".toList
       = some ("date".toList, CmdTag.date)) := by
  refine ⟨?_, ?_, ?_, findHandler_isSome tbl cmd, by decide⟩
  · intro he
    rw [he]
  · intro hnone hk
    unfold handleCommand
    rw [findHandler_append_first t1 t2 k h cmd hnone hk]
  · intro hn
    unfold handleCommand
    rw [hn]

/-- Closed instantiation of command_dispatch_semantics at concrete inputs. -/
theorem command_dispatch_semantics_witness :
    handleCommand [] (lowerL "What Time".toList)
        = handleCommand [] (lowerL "what time".toList) ∧
    handleCommand [("date".toList, fun _ => "resp".toList)]
        "what is today\x27s date".toList = "resp".toList ∧
    handleCommand [] "open the pod bay doors".toList
        = fallbackResponse "open the pod bay doors".toList := by
  have ht := command_dispatch_semantics [] [] []
    "date".toList (fun _ => "resp".toList)
    "what is today\x27s date".toList "What Time".toList "what time".toList
  have ht2 := command_dispatch_semantics [] [] []
    "date".toList (fun _ => "resp".toList)
    "open the pod bay doors".toList "a".toList "a".toList
  exact ⟨ht.1 (by decide),
         ht.2.1 (fun p hp => absurd hp (List.not_mem_nil p)) (by decide),
         ht2.2.2.1 rfl⟩
